import Mathlib

/-!
Shallow embedding of `cli/commands/scaffold/action.go` (scaffold command of
the terragrunt fork).  Pure Go functions become Lean functions; filesystem,
network and parser collaborators become explicit parameters; Go panics become
a distinguished abort constructor; Go `error` returns become `Except`.
-/

namespace Scaffold

/-! ## Constants (action.go lines 38-41) -/

def SourceUrlTypeHttps : String := "git-https"

def SourceUrlTypeGit : String := "git-ssh"

def SourceGitSshUser : String := "git"

/-! ## parseUrl (action.go lines 279-295)

`parseUrl` applies the Go regular expression `git::([^:]+)://([^/]+)(/.*)`
via `FindStringSubmatch` and returns the three capture groups, or
`("", "", "")` when there is no match (modelled here as `none`).

The regex engine's behaviour on this pattern is deterministic: after the
literal `git::`, `([^:]+)` takes the maximal run of non-colon characters
(backtracking cannot shorten it, since the following literal is a colon),
then `://`, then `([^/]+)` takes the maximal run of non-slash characters
(the next pattern character is a slash), then `(/.*)` takes a slash and the
maximal run of non-newline characters.  `FindStringSubmatch` scans start
positions left to right.  -/

def matchAt (s : List Char) : Option (List Char × List Char × List Char) :=
  match s with
  | 'g' :: 'i' :: 't' :: ':' :: ':' :: rest =>
    let (scheme, r1) := rest.span (fun c => c ≠ ':')
    if scheme.isEmpty then none
    else
      match r1 with
      | ':' :: '/' :: '/' :: r2 =>
        let (host, r3) := r2.span (fun c => c ≠ '/')
        if host.isEmpty then none
        else
          match r3 with
          | '/' :: _ => some (scheme, host, r3.takeWhile (fun c => c ≠ '\n'))
          | _ => none
      | _ => none
  | _ => none

def findMatch : List Char → Option (List Char × List Char × List Char)
  | [] => none
  | c :: rest =>
    match matchAt (c :: rest) with
    | some m => some m
    | none => findMatch rest

def parseUrl (moduleUrl : String) : Option (String × String × String) :=
  match findMatch moduleUrl.toList with
  | some (scheme, host, path) => some (String.mk scheme, String.mk host, String.mk path)
  | none => none

/-! ## Source-URL rewrite step (Run, action.go lines 196-216)

The caller-supplied variables are modelled as an association list (first
binding wins, like a Go map lookup of distinct keys); the values the code
reads are strings via `fmt.Sprintf("%s", value)`.  `parseUrl = none` models
the Go `scheme == ""` case, in which the outer guard skips the rewrite.  -/

def rewriteSourceUrl (vars : List (String × String)) (moduleUrl : String) : String :=
  let sourceUrlType :=
    match vars.lookup "SourceUrlType" with
    | some v => v
    | none => SourceUrlTypeHttps
  match parseUrl moduleUrl with
  | none => moduleUrl
  | some (scheme, host, path) =>
    if scheme = SourceUrlTypeHttps ∧ sourceUrlType = SourceUrlTypeGit then
      let gitUser :=
        match vars.lookup "SourceGitSshUser" with
        | some v => v
        | none => SourceGitSshUser
      let path := if path.startsWith "/" then path.drop 1 else path
      gitUser ++ "@" ++ host ++ ":" ++ path
    else moduleUrl

/-- C1: for the locator `git::https://github.com/org/repo//modules/x` with
override `SourceUrlType=git-ssh`, the rewrite step does NOT produce
`git@github.com:org/repo//modules/x`: the regex captures the scheme
`"https"`, but the code compares it with the constant
`SourceUrlTypeHttps = "git-https"`, which can never match, so the locator is
returned unchanged — contradicting the code's own comment
"try to rewrite module url if is https and is requested to be git". -/
theorem c1_https_locator_never_rewritten :
    rewriteSourceUrl [("SourceUrlType", "git-ssh")]
        "git::https://github.com/org/repo//modules/x"
      = "git::https://github.com/org/repo//modules/x"
    ∧ parseUrl "git::https://github.com/org/repo//modules/x"
      = some ("https", "github.com", "/org/repo//modules/x")
    ∧ rewriteSourceUrl [("SourceUrlType", "git-ssh")]
        "git::https://github.com/org/repo//modules/x"
      ≠ "git@github.com:org/repo//modules/x" := by
  refine ⟨?_, ?_, ?_⟩ <;> decide

/-! ## Value model

The code manipulates values of the external `cty` library.  The model keeps
the value shapes the scaffold code can actually meet: strings, (integral)
numbers, booleans, null, and the not-wholly-known value, on which
`ctyjson.Marshal` fails.  `asString?` models `cty.Value.AsString`, which
panics (here: `none`) unless the value is a string. -/

inductive CtyValue where
  | str (s : String)
  | num (n : Int)
  | bool (b : Bool)
  | nullV
  | unknown
deriving DecidableEq

def CtyValue.asString? : CtyValue → Option String
  | .str s => some s
  | _ => none

/-! ## Default-value serialization (listInputs, action.go lines 365-381)

The code marshals the resolved value with `ctyjson.Marshal(v, DynamicPseudoType)`
(producing a `{"value": ..., "type": ...}` wrapper), unmarshals the wrapper,
and re-marshals only its `Value` field with `encoding/json`.  The net effect
is the canonical JSON text of the underlying data.  `encoding/json` escapes
quote, backslash, control characters and the HTML-sensitive characters. -/

def jsonEscapeChar (c : Char) : String :=
  if c = '"' then "\\\""
  else if c = '\\' then "\\\\"
  else if c = '\n' then "\\n"
  else if c = '\r' then "\\r"
  else if c = '\t' then "\\t"
  else if c = '<' then "\\u003c"
  else if c = '>' then "\\u003e"
  else if c = '&' then "\\u0026"
  else if c.toNat < 32 then
    "\\u00" ++ String.mk [Nat.digitChar (c.toNat / 16), Nat.digitChar (c.toNat % 16)]
  else String.mk [c]

def jsonRenderString (s : String) : String :=
  "\"" ++ String.join (s.toList.map jsonEscapeChar) ++ "\""

def jsonRender : CtyValue → Option String
  | .str s => some (jsonRenderString s)
  | .num n => some (toString n)
  | .bool b => some (if b then "true" else "false")
  | .nullV => some "null"
  | .unknown => none

/-! ## Expressions and blocks

`readBlockAttribute` consumes an `hcl.Expression` only through the two
methods `Variables()` (the traversals the expression references) and
`Value(ctx)` with an empty evaluation context; an expression is therefore
modelled by exactly those two observations.  A traversal is a non-empty
sequence of traversers; the code inspects only its first element. -/

inductive Traverser where
  | root (name : String)
  | attr (name : String)
deriving DecidableEq

structure Traversal where
  first : Traverser
  rest : List Traverser
deriving DecidableEq

structure EvalDiag where
  msg : String
deriving DecidableEq

structure Expr where
  vars : List Traversal
  value : Except EvalDiag CtyValue

def Expr.literal (v : CtyValue) : Expr :=
  { vars := [], value := .ok v }

def Expr.scopeTraversal (name : String) : Expr :=
  { vars := [⟨.root name, []⟩],
    value := .error ⟨"Variables not allowed"⟩ }

structure Block where
  type : String
  labels : List String
  attributes : List (String × Expr)

/-! ## readBlockAttribute (action.go lines 404-425)

`block.Body.Attributes[name]` is a Go map lookup (association list here);
an `hclsyntax` attribute's `Expr` is never nil, so the nil check is not
modelled.  If the expression references at least one traversal whose first
step is a `TraverseRoot`, the root name is returned as a string value
without evaluation; otherwise the expression is evaluated against the empty
context. -/

def readBlockAttribute (b : Block) (name : String) : Except EvalDiag (Option CtyValue) :=
  match b.attributes.lookup name with
  | none => .ok none
  | some e =>
    match e.vars with
    | [] =>
      match e.value with
      | .ok v => .ok (some v)
      | .error d => .error d
    | t :: _ =>
      match t.first with
      | .root n => .ok (some (.str n))
      | _ =>
        match e.value with
        | .ok v => .ok (some v)
        | .error d => .error d

/-! ## Variable extraction (listInputs, action.go lines 305-397)

Go panics (indexing `block.Labels[0]` on an empty label list, and
`AsString` on a non-string value) abort the process without returning an
error; they are modelled as the distinguished outcome `Abort.panicked`,
separate from error returns (`Abort.failed`). -/

structure ParsedInput where
  Name : String
  Description : String
  Typ : String
  DefaultValue : String
deriving DecidableEq

def ParsedInput.IsRequired (p : ParsedInput) : Bool :=
  p.DefaultValue = ""

inductive RunPanic where
  | indexOutOfRange
  | asStringPanic
deriving DecidableEq

inductive RunErr where
  | walkError
  | serializationError
deriving DecidableEq

inductive Abort where
  | panicked (p : RunPanic)
  | failed (e : RunErr)
deriving DecidableEq

/-- Resolve an attribute the way `listInputs` does: a resolver error is
logged and the attribute treated as absent (`xxxAttr = nil`). -/
def attrOrNone (b : Block) (name : String) : Option CtyValue :=
  match readBlockAttribute b name with
  | .error _ => none
  | .ok r => r

/-- Computation of the Go local `descriptionAttrText` (action.go lines
334-344): a resolved non-string value panics in `AsString`; an absent or
unresolvable attribute yields the placeholder. -/
def descriptionTextOf (b : Block) (name : String) : Except Abort String :=
  match attrOrNone b "description" with
  | some v =>
    match v.asString? with
    | some s => .ok s
    | none => .error (.panicked .asStringPanic)
  | none => .ok ("No description for " ++ name)

/-- Computation of the Go local `typeAttrText` (action.go lines 346-356). -/
def typeTextOf (b : Block) (name : String) : Except Abort String :=
  match attrOrNone b "type" with
  | some v =>
    match v.asString? with
    | some s => .ok s
    | none => .error (.panicked .asStringPanic)
  | none => .ok ("No type for " ++ name)

/-- Computation of the Go local `defaultValueText` (action.go lines
358-381): a resolved default is serialized to JSON; a serialization failure
is returned as a fatal error; an absent default yields `""`. -/
def defaultTextOf (b : Block) : Except Abort String :=
  match attrOrNone b "default" with
  | some v =>
    match jsonRender v with
    | some s => .ok s
    | none => .error (.failed .serializationError)
  | none => .ok ""

/-- Processing of one top-level block in the per-file loop of `listInputs`
(action.go lines 329-391).  `.ok none` means the block contributes no
descriptor; a non-"variable" block or an empty first label is skipped.
Note that `block.Labels[0]` is read before the emptiness test, so an empty
label list panics.  The three attribute texts are computed in source order,
so the first abort among description, type, default wins.  (The dead
reassignment `descriptionAttr = nil` in the type-error branch at line 350
has no observable effect and is not modelled.) -/
def processBlock (b : Block) : Except Abort (Option ParsedInput) :=
  if b.type = "variable" then
    match b.labels with
    | [] => .error (.panicked .indexOutOfRange)
    | label0 :: _ =>
      if 0 < label0.length then
        match descriptionTextOf b label0, typeTextOf b label0, defaultTextOf b with
        | .ok d, .ok t, .ok dv => .ok (some ⟨label0, d, t, dv⟩)
        | .error a, _, _ => .error a
        | .ok _, .error a, _ => .error a
        | .ok _, .ok _, .error a => .error a
      else .ok none
  else .ok none

def okBool : Except Abort String → Bool
  | .ok _ => true
  | .error _ => false

/-- A block whose processing cannot abort: either it contributes no
descriptor, or its three attribute computations all succeed. -/
def Block.benign (b : Block) : Bool :=
  if b.type = "variable" then
    match b.labels with
    | [] => false
    | label0 :: _ =>
      if 0 < label0.length then
        okBool (descriptionTextOf b label0) && okBool (typeTextOf b label0)
          && okBool (defaultTextOf b)
      else true
  else true

def processBlocks : List Block → Except Abort (List ParsedInput)
  | [] => .ok []
  | b :: bs =>
    match processBlock b with
    | .error a => .error a
    | .ok r =>
      match processBlocks bs with
      | .error a => .error a
      | .ok rest =>
        match r with
        | some x => .ok (x :: rest)
        | none => .ok rest

/-- Outcome of reading and parsing one `.tf` file: a read error or a parse
error (both logged and skipped with `continue`), or the parsed top-level
block list. -/
inductive TfFile where
  | readError
  | parseError
  | parsed (blocks : List Block)

def TfFile.isSkipped : TfFile → Bool
  | .readError => true
  | .parseError => true
  | .parsed _ => false

def listInputsFiles : List TfFile → Except Abort (List ParsedInput)
  | [] => .ok []
  | .readError :: fs => listInputsFiles fs
  | .parseError :: fs => listInputsFiles fs
  | .parsed bs :: fs =>
    match processBlocks bs with
    | .error a => .error a
    | .ok xs =>
      match listInputsFiles fs with
      | .error a => .error a
      | .ok rest => .ok (xs ++ rest)

/-- Entry point of `listInputs`: the `listTerraformFiles` directory walk is
an external effect, modelled by its outcome; a walk failure is returned as
an error (action.go lines 306-309). -/
def listInputs (walk : Except Unit (List TfFile)) : Except Abort (List ParsedInput) :=
  match walk with
  | .error _ => .error (.failed .walkError)
  | .ok fs => listInputsFiles fs

def extractionSucceeds (r : Except Abort (List ParsedInput)) : Bool :=
  match r with
  | .ok _ => true
  | .error _ => false

/-! ## Input classification (Run, action.go lines 180-189) -/

def classifyInputs (inputs : List ParsedInput) : List ParsedInput × List ParsedInput :=
  inputs.foldl
    (fun acc value =>
      if value.DefaultValue = "" then (acc.1 ++ [value], acc.2)
      else (acc.1, acc.2 ++ [value]))
    ([], [])

/-! ## Ref injection (Run, action.go lines 103-116)

A locator is modelled by its parsed query parameters (in order, as
`url.Values` observed through `Get`, which returns the first value of the
key and `""` when absent) and its remaining, untouched part.  The
`terraform.SplitSourceUrl` collaborator and the GitHub latest-release
lookup are external and passed as parameters.  The second component of the
result counts how many times the lookup was invoked. -/

structure Url where
  query : List (String × String)
  rest : String
deriving DecidableEq

def paramsGet (params : List (String × String)) (key : String) : String :=
  match params.lookup key with
  | some v => v
  | none => ""

def injectRef (u : Url) (rootUrl : Except Unit Url)
    (latestTag : Url → Except Unit String) : Except Unit Url × Nat :=
  if paramsGet u.query "ref" = "" then
    match rootUrl with
    | .error e => (.error e, 0)
    | .ok root =>
      match latestTag root with
      | .ok tag => (.ok { u with query := u.query ++ [("ref", tag)] }, 1)
      | .error _ => (.ok u, 1)
  else (.ok u, 0)

/-! ## getLatestReleaseTag (action.go lines 250-258)

Only the guard and the owner/repo extraction are code of this repository;
the GitHub call itself is external.  `strings.Split(path, "/")` matches
`String.splitOn`; `pathParts[1]` is safe under the guard, while
`pathParts[2]` is read unconditionally and panics when the split has
exactly two parts. -/

def trimSuffixStr (s suf : String) : String :=
  if s.endsWith suf then s.dropRight suf.length else s

/-- Model of Go `strings.Split(s, "/")`: split at every slash, keeping empty
fields, so the result always has one more field than the number of
separators (`Split("", "/") = [""]`, `Split("/owner", "/") = ["", "owner"]`). -/
def splitOnSlash : List Char → List (List Char)
  | [] => [[]]
  | c :: rest =>
    match splitOnSlash rest with
    | [] => [[]]
    | g :: gs => if c = '/' then [] :: g :: gs else (c :: g) :: gs

def splitPath (path : String) : List String :=
  (splitOnSlash path.toList).map String.mk

inductive TagStep where
  | invalidUrlError
  | panicked
  | lookup (owner repo : String)
deriving DecidableEq

def getLatestReleaseTagStep (path : String) : TagStep :=
  let pathParts := splitPath path
  if pathParts.length < 2 then .invalidUrlError
  else
    match pathParts.get? 2 with
    | none => .panicked
    | some repo => .lookup ((pathParts.get? 1).getD "") (trimSuffixStr repo ".git")

/-! ## Helper lemmas -/

theorem classifyInputs_eq_filter (l : List ParsedInput) :
    classifyInputs l
      = (l.filter (fun v => v.DefaultValue = ""),
         l.filter (fun v => ¬ v.DefaultValue = "")) := by
  suffices h : ∀ acc : List ParsedInput × List ParsedInput,
      l.foldl (fun acc value =>
          if value.DefaultValue = "" then (acc.1 ++ [value], acc.2)
          else (acc.1, acc.2 ++ [value])) acc
        = (acc.1 ++ l.filter (fun v => v.DefaultValue = ""),
           acc.2 ++ l.filter (fun v => ¬ v.DefaultValue = "")) by
    simpa [classifyInputs] using h ([], [])
  induction l with
  | nil => intro acc; simp
  | cons x xs ih =>
    intro acc
    by_cases hx : x.DefaultValue = "" <;>
      simp [List.foldl_cons, List.filter_cons, hx, ih]

theorem length_filter_partition (l : List ParsedInput) :
    (l.filter (fun v => decide (v.DefaultValue = ""))).length
      + (l.filter (fun v => !decide (v.DefaultValue = ""))).length = l.length := by
  induction l with
  | nil => rfl
  | cons x xs ih =>
    by_cases hx : x.DefaultValue = "" <;> simp [List.filter_cons, hx] <;> omega

/-! ## Claim theorems -/

/-- C2: a `variable "X" {}` block with no attributes yields the descriptor
with Name `X`, Description `"No description for X"`, Type `"No type for X"`
and empty DefaultValue; it is required and lands alone in the required
partition. -/
theorem c2_bare_variable_block_descriptor (name : String) (h : 0 < name.length) :
    processBlock ⟨"variable", [name], []⟩
      = .ok (some ⟨name, "No description for " ++ name, "No type for " ++ name, ""⟩)
    ∧ listInputsFiles [.parsed [⟨"variable", [name], []⟩]]
      = .ok [⟨name, "No description for " ++ name, "No type for " ++ name, ""⟩]
    ∧ (ParsedInput.mk name ("No description for " ++ name)
        ("No type for " ++ name) "").IsRequired = true
    ∧ classifyInputs [⟨name, "No description for " ++ name, "No type for " ++ name, ""⟩]
      = ([⟨name, "No description for " ++ name, "No type for " ++ name, ""⟩], []) := by
  have hp : processBlock ⟨"variable", [name], []⟩
      = .ok (some ⟨name, "No description for " ++ name, "No type for " ++ name, ""⟩) := by
    simp [processBlock, h, descriptionTextOf, typeTextOf, defaultTextOf,
      attrOrNone, readBlockAttribute]
  refine ⟨hp, ?_, rfl, ?_⟩
  · simp [listInputsFiles, processBlocks, hp]
  · simp [classifyInputs_eq_filter, List.filter_cons]

theorem c2_bare_variable_block_descriptor_witness :
    processBlock ⟨"variable", ["X"], []⟩
      = .ok (some ⟨"X", "No description for X", "No type for X", ""⟩)
    ∧ listInputsFiles [.parsed [⟨"variable", ["X"], []⟩]]
      = .ok [⟨"X", "No description for X", "No type for X", ""⟩]
    ∧ (ParsedInput.mk "X" "No description for X" "No type for X" "").IsRequired = true
    ∧ classifyInputs [⟨"X", "No description for X", "No type for X", ""⟩]
      = ([⟨"X", "No description for X", "No type for X", ""⟩], []) :=
  c2_bare_variable_block_descriptor "X" (by decide)

/-- C3: a literal default is serialized to the canonical JSON text of the
underlying data: `default = 5` gives `"5"`, `default = "a"` gives the quoted
string, `default = true` gives `"true"`. -/
theorem c3_default_literal_serialization :
    processBlock ⟨"variable", ["x"], [("default", Expr.literal (.num 5))]⟩
      = .ok (some ⟨"x", "No description for x", "No type for x", "5"⟩)
    ∧ processBlock ⟨"variable", ["y"], [("default", Expr.literal (.str "a"))]⟩
      = .ok (some ⟨"y", "No description for y", "No type for y", "\"a\""⟩)
    ∧ processBlock ⟨"variable", ["z"], [("default", Expr.literal (.bool true))]⟩
      = .ok (some ⟨"z", "No description for z", "No type for z", "true"⟩) :=
  ⟨rfl, rfl, rfl⟩

/-- C4: classification is the stable, total partition of the extracted
descriptors by emptiness of the default value: the required output is
exactly the in-order sublist with empty DefaultValue, the optional output
exactly the in-order sublist with non-empty DefaultValue, the lengths add
up, and the empty input yields two empty sequences. -/
theorem c4_classification_total_stable_partition (l : List ParsedInput) :
    (classifyInputs l).1 = l.filter (fun v => v.DefaultValue = "")
    ∧ (classifyInputs l).2 = l.filter (fun v => ¬ v.DefaultValue = "")
    ∧ (classifyInputs l).1.length + (classifyInputs l).2.length = l.length
    ∧ classifyInputs ([] : List ParsedInput) = ([], []) := by
  refine ⟨?_, ?_, ?_, rfl⟩ <;>
    simp [classifyInputs_eq_filter, length_filter_partition]

/-- C8: a top-level `variable` block with an empty label list makes the
extractor read `block.Labels[0]` out of range: processing the block — and
with it the whole extraction — aborts with an index-out-of-range panic
instead of skipping the block or reporting an error value. -/
theorem c8_zero_label_variable_block_panics (attrs : List (String × Expr))
    (fs : List TfFile) :
    processBlock ⟨"variable", [], attrs⟩ = .error (.panicked .indexOutOfRange)
    ∧ listInputsFiles (TfFile.parsed [⟨"variable", [], attrs⟩] :: fs)
      = .error (.panicked .indexOutOfRange) := by
  refine ⟨rfl, ?_⟩
  simp [listInputsFiles, processBlocks,
    show processBlock ⟨"variable", [], attrs⟩ = .error (.panicked .indexOutOfRange)
      from rfl]

/-- Expression referencing the two identifiers `a` and `b` (as in the HCL
template `"${a}-${b}"`), whose evaluation against the empty context fails. -/
def twoVarExpr : Expr :=
  { vars := [⟨.root "a", []⟩, ⟨.root "b", []⟩],
    value := .error ⟨"Variables not allowed"⟩ }

def twoVarBlock : Block := ⟨"variable", ["v"], [("default", twoVarExpr)]⟩

/-- C5 counterexample: for an attribute expression referencing two
identifiers (not "exactly one"), the claim requires evaluation against the
empty context and hence an evaluation error, but the resolver returns the
first identifier's root name as a string value without evaluating. -/
theorem c5_two_identifiers_counterexample :
    twoVarExpr.vars.length = 2
    ∧ readBlockAttribute twoVarBlock "default" = .ok (some (.str "a"))
    ∧ twoVarExpr.value = .error ⟨"Variables not allowed"⟩ :=
  ⟨rfl, rfl, rfl⟩

/-- C5 (amended): if the attribute's expression references at least one
identifier and the first referenced traversal starts with a bare root
reference, the resolver returns that root's literal name as a string value
without evaluating; only an expression referencing no identifier is
evaluated against the empty context, where a literal succeeds and anything
needing external bindings surfaces its evaluation error. -/
theorem c5_first_root_identifier_short_circuit (b : Block) (nm : String) (e : Expr)
    (hattr : b.attributes.lookup nm = some e) :
    (∀ n rest ts, e.vars = ⟨Traverser.root n, rest⟩ :: ts →
      readBlockAttribute b nm = .ok (some (.str n)))
    ∧ (∀ v, e.vars = [] → e.value = .ok v →
      readBlockAttribute b nm = .ok (some v))
    ∧ (∀ d, e.vars = [] → e.value = .error d →
      readBlockAttribute b nm = .error d) := by
  refine ⟨?_, ?_, ?_⟩
  · intro n rest ts hv
    simp [readBlockAttribute, hattr, hv]
  · intro v hv hval
    simp [readBlockAttribute, hattr, hv, hval]
  · intro d hv hval
    simp [readBlockAttribute, hattr, hv, hval]

def c5WitnessBlock : Block :=
  ⟨"variable", ["w"], [("type", Expr.scopeTraversal "string")]⟩

theorem c5_first_root_identifier_short_circuit_witness :
    readBlockAttribute c5WitnessBlock "type" = .ok (some (.str "string")) :=
  (c5_first_root_identifier_short_circuit c5WitnessBlock "type"
    (Expr.scopeTraversal "string") rfl).1 "string" [] [] rfl

/-- C6 counterexample: a locator that carries a `ref` query parameter with
an EMPTY value does trigger the latest-tag lookup (the code tests
`params.Get("ref") == ""`, which cannot distinguish an empty-valued
parameter from an absent one), and the locator is modified — contradicting
"only when the original locator carries no `ref` query parameter" and
"never modified". -/
theorem c6_empty_ref_param_counterexample :
    injectRef ⟨[("ref", "")], "git::https://github.com/org/repo"⟩
        (.ok ⟨[], "github.com/org/repo"⟩) (fun _ => .ok "v9.9")
      = (.ok ⟨[("ref", ""), ("ref", "v9.9")], "git::https://github.com/org/repo"⟩, 1)
    ∧ ("ref", "") ∈ [(("ref" : String), ("" : String))] :=
  ⟨rfl, by simp⟩

/-- C6 (amended): the latest-tag lookup runs at most once per run, and only
when the first `ref` query parameter value of the original locator is empty
or the parameter is absent; in that case a successful lookup of tag `t`
appends `ref=t` to the query, while a locator whose `ref` parameter has a
non-empty value (such as `ref=v0.9`) is returned unchanged with the lookup
not attempted. -/
theorem c6_ref_lookup_at_most_once (u u2 root : Url) (rootUrl : Except Unit Url)
    (latestTag : Url → Except Unit String) (tag : String)
    (h0 : paramsGet u.query "ref" = "") (hr : rootUrl = .ok root)
    (hl : latestTag root = .ok tag) (h2 : paramsGet u2.query "ref" ≠ "") :
    (∀ w : Url, (injectRef w rootUrl latestTag).2 ≤ 1)
    ∧ injectRef u rootUrl latestTag
      = (.ok ⟨u.query ++ [("ref", tag)], u.rest⟩, 1)
    ∧ ("ref", tag) ∈ u.query ++ [("ref", tag)]
    ∧ injectRef u2 rootUrl latestTag = (.ok u2, 0) := by
  refine ⟨?_, ?_, by simp, ?_⟩
  · intro w
    unfold injectRef
    split
    · subst hr
      cases hw : latestTag root <;> simp [hw]
    · simp
  · simp [injectRef, h0, hr, hl]
  · simp [injectRef, h2]

theorem c6_ref_lookup_at_most_once_witness :
    injectRef ⟨[], "git::https://github.com/org/repo"⟩
        (.ok ⟨[], "github.com/org/repo"⟩) (fun _ => .ok "v1.2.3")
      = (.ok ⟨[("ref", "v1.2.3")], "git::https://github.com/org/repo"⟩, 1)
    ∧ injectRef ⟨[("ref", "v0.9")], "git::https://github.com/org/repo"⟩
        (.ok ⟨[], "github.com/org/repo"⟩) (fun _ => .ok "v1.2.3")
      = (.ok ⟨[("ref", "v0.9")], "git::https://github.com/org/repo"⟩, 0) := by
  constructor
  · exact (c6_ref_lookup_at_most_once ⟨[], "git::https://github.com/org/repo"⟩
      ⟨[("ref", "v0.9")], "git::https://github.com/org/repo"⟩
      ⟨[], "github.com/org/repo"⟩ (.ok ⟨[], "github.com/org/repo"⟩)
      (fun _ => .ok "v1.2.3") "v1.2.3" rfl rfl rfl (by decide)).2.1
  · exact (c6_ref_lookup_at_most_once ⟨[], "git::https://github.com/org/repo"⟩
      ⟨[("ref", "v0.9")], "git::https://github.com/org/repo"⟩
      ⟨[], "github.com/org/repo"⟩ (.ok ⟨[], "github.com/org/repo"⟩)
      (fun _ => .ok "v1.2.3") "v1.2.3" rfl rfl rfl (by decide)).2.2.2

/-- C9: the guard of `getLatestReleaseTag` returns the "invalid repository
URL" error only for paths splitting into fewer than two '/'-separated
parts; a path splitting into exactly two parts (such as "/owner") passes
the guard and then panics reading index 2 instead of returning that
error. -/
theorem c9_two_part_path_panics (path : String)
    (h2 : (splitPath path).length = 2) :
    getLatestReleaseTagStep path = .panicked
    ∧ (∀ q : String, (splitPath q).length < 2 →
      getLatestReleaseTagStep q = .invalidUrlError)
    ∧ splitPath "/owner" = ["", "owner"] := by
  refine ⟨?_, ?_, rfl⟩
  · unfold getLatestReleaseTagStep
    rw [if_neg (by omega)]
    have hnone : (splitPath path).get? 2 = none := by
      rw [List.get?_eq_none]
      omega
    rw [hnone]
  · intro q hq
    unfold getLatestReleaseTagStep
    rw [if_pos hq]

theorem c9_two_part_path_panics_witness :
    getLatestReleaseTagStep "/owner" = .panicked :=
  (c9_two_part_path_panics "/owner" rfl).1

/-- C10: a resolved `description` or `type` attribute whose value is not a
string makes the extractor call `AsString` on it, which panics and aborts
the whole run instead of substituting a placeholder. -/
theorem c10_nonstring_description_or_type_panics (v : CtyValue)
    (h : v.asString? = none) :
    processBlock ⟨"variable", ["x"], [("description", Expr.literal v)]⟩
      = .error (.panicked .asStringPanic)
    ∧ processBlock ⟨"variable", ["y"], [("type", Expr.literal v)]⟩
      = .error (.panicked .asStringPanic)
    ∧ listInputsFiles [.parsed [⟨"variable", ["x"], [("description", Expr.literal v)]⟩]]
      = .error (.panicked .asStringPanic) := by
  have h1 : processBlock ⟨"variable", ["x"], [("description", Expr.literal v)]⟩
      = .error (.panicked .asStringPanic) := by
    cases v with
    | str s => simp [CtyValue.asString?] at h
    | num n => rfl
    | bool b => rfl
    | nullV => rfl
    | unknown => rfl
  have h2 : processBlock ⟨"variable", ["y"], [("type", Expr.literal v)]⟩
      = .error (.panicked .asStringPanic) := by
    cases v with
    | str s => simp [CtyValue.asString?] at h
    | num n => rfl
    | bool b => rfl
    | nullV => rfl
    | unknown => rfl
  exact ⟨h1, h2, by simp [listInputsFiles, processBlocks, h1]⟩

theorem c10_nonstring_description_or_type_panics_witness :
    processBlock ⟨"variable", ["x"], [("description", Expr.literal (.num 5))]⟩
      = .error (.panicked .asStringPanic)
    ∧ processBlock ⟨"variable", ["y"], [("type", Expr.literal (.bool true))]⟩
      = .error (.panicked .asStringPanic) :=
  ⟨(c10_nonstring_description_or_type_panics (.num 5) rfl).1,
   (c10_nonstring_description_or_type_panics (.bool true) rfl).2.1⟩

/-! ## Lemmas for the error-policy claim -/

theorem listInputsFiles_filter_skipped (fs : List TfFile) :
    listInputsFiles (fs.filter (fun f => !f.isSkipped)) = listInputsFiles fs := by
  induction fs with
  | nil => rfl
  | cons f fs ih =>
    cases f with
    | readError => exact ih
    | parseError => exact ih
    | parsed bs =>
      show listInputsFiles (TfFile.parsed bs :: fs.filter (fun f => !f.isSkipped))
          = listInputsFiles (TfFile.parsed bs :: fs)
      simp only [listInputsFiles, ih]

theorem descriptionTextOf_error_eq (b : Block) (n : String) (a : Abort)
    (h : descriptionTextOf b n = .error a) : a = .panicked .asStringPanic := by
  unfold descriptionTextOf at h
  split at h
  · split at h
    · exact absurd h (by simp)
    · exact (Except.error.inj h).symm
  · exact absurd h (by simp)

theorem typeTextOf_error_eq (b : Block) (n : String) (a : Abort)
    (h : typeTextOf b n = .error a) : a = .panicked .asStringPanic := by
  unfold typeTextOf at h
  split at h
  · split at h
    · exact absurd h (by simp)
    · exact (Except.error.inj h).symm
  · exact absurd h (by simp)

theorem defaultTextOf_error_eq (b : Block) (a : Abort)
    (h : defaultTextOf b = .error a) : a = .failed .serializationError := by
  unfold defaultTextOf at h
  split at h
  · split at h
    · exact absurd h (by simp)
    · exact (Except.error.inj h).symm
  · exact absurd h (by simp)

theorem processBlock_error_cases (b : Block) (a : Abort)
    (h : processBlock b = .error a) :
    a = .panicked .indexOutOfRange ∨ a = .panicked .asStringPanic
      ∨ a = .failed .serializationError := by
  by_cases ht : b.type = "variable"
  · cases hl : b.labels with
    | nil =>
      simp [processBlock, ht, hl] at h
      exact Or.inl h.symm
    | cons label0 rest =>
      by_cases hlen : 0 < label0.length
      · cases hD : descriptionTextOf b label0 with
        | error aD =>
          simp [processBlock, ht, hl, hlen, hD] at h
          exact Or.inr (Or.inl (h ▸ descriptionTextOf_error_eq b label0 aD hD))
        | ok d =>
          cases hT : typeTextOf b label0 with
          | error aT =>
            simp [processBlock, ht, hl, hlen, hD, hT] at h
            exact Or.inr (Or.inl (h ▸ typeTextOf_error_eq b label0 aT hT))
          | ok t =>
            cases hF : defaultTextOf b with
            | error aF =>
              simp [processBlock, ht, hl, hlen, hD, hT, hF] at h
              exact Or.inr (Or.inr (h ▸ defaultTextOf_error_eq b aF hF))
            | ok dv =>
              simp [processBlock, ht, hl, hlen, hD, hT, hF] at h
      · simp [processBlock, ht, hl, hlen] at h
  · simp [processBlock, ht] at h

theorem processBlocks_error_cases (bs : List Block) :
    ∀ a : Abort, processBlocks bs = .error a →
    a = .panicked .indexOutOfRange ∨ a = .panicked .asStringPanic
      ∨ a = .failed .serializationError := by
  induction bs with
  | nil => intro a h; exact absurd h (by simp [processBlocks])
  | cons b bs ih =>
    intro a h
    cases hb : processBlock b with
    | error ab =>
      simp [processBlocks, hb] at h
      exact h ▸ processBlock_error_cases b ab hb
    | ok r =>
      cases hbs : processBlocks bs with
      | error abs =>
        simp [processBlocks, hb, hbs] at h
        exact h ▸ ih abs hbs
      | ok rest =>
        cases r <;> simp [processBlocks, hb, hbs] at h

theorem listInputsFiles_error_cases (fs : List TfFile) :
    ∀ a : Abort, listInputsFiles fs = .error a →
    a = .panicked .indexOutOfRange ∨ a = .panicked .asStringPanic
      ∨ a = .failed .serializationError := by
  induction fs with
  | nil => intro a h; exact absurd h (by simp [listInputsFiles])
  | cons f fs ih =>
    intro a h
    cases f with
    | readError => exact ih a h
    | parseError => exact ih a h
    | parsed bs =>
      cases hb : processBlocks bs with
      | error ab =>
        simp [listInputsFiles, hb] at h
        exact h ▸ processBlocks_error_cases bs ab hb
      | ok xs =>
        cases hfs : listInputsFiles fs with
        | error afs =>
          simp [listInputsFiles, hb, hfs] at h
          exact h ▸ ih afs hfs
        | ok rest =>
          simp [listInputsFiles, hb, hfs] at h

theorem processBlock_benign_ok (b : Block) (h : b.benign = true) :
    ∃ x, processBlock b = .ok x := by
  by_cases ht : b.type = "variable"
  · cases hl : b.labels with
    | nil => simp [Block.benign, ht, hl] at h
    | cons label0 rest =>
      by_cases hlen : 0 < label0.length
      · cases hD : descriptionTextOf b label0 with
        | error aD => simp [Block.benign, ht, hl, hlen, hD, okBool] at h
        | ok d =>
          cases hT : typeTextOf b label0 with
          | error aT => simp [Block.benign, ht, hl, hlen, hD, hT, okBool] at h
          | ok t =>
            cases hF : defaultTextOf b with
            | error aF => simp [Block.benign, ht, hl, hlen, hD, hT, hF, okBool] at h
            | ok dv =>
              exact ⟨some ⟨label0, d, t, dv⟩,
                by simp [processBlock, ht, hl, hlen, hD, hT, hF]⟩
      · exact ⟨none, by simp [processBlock, ht, hl, hlen]⟩
  · exact ⟨none, by simp [processBlock, ht]⟩

theorem processBlocks_benign_ok (bs : List Block)
    (h : ∀ b ∈ bs, Block.benign b = true) :
    ∃ xs, processBlocks bs = .ok xs := by
  induction bs with
  | nil => exact ⟨[], rfl⟩
  | cons b bs ih =>
    obtain ⟨x, hx⟩ := processBlock_benign_ok b (h b (by simp))
    obtain ⟨xs, hxs⟩ := ih (fun b' hb' => h b' (by simp [hb']))
    cases x with
    | none => exact ⟨xs, by simp [processBlocks, hx, hxs]⟩
    | some d => exact ⟨d :: xs, by simp [processBlocks, hx, hxs]⟩

theorem listInputsFiles_benign_ok (fs : List TfFile)
    (h : ∀ bs, TfFile.parsed bs ∈ fs → ∀ b ∈ bs, Block.benign b = true) :
    ∃ xs, listInputsFiles fs = .ok xs := by
  induction fs with
  | nil => exact ⟨[], rfl⟩
  | cons f fs ih =>
    have hrest := ih (fun bs hbs b hb => h bs (by simp [hbs]) b hb)
    cases f with
    | readError => simpa [listInputsFiles] using hrest
    | parseError => simpa [listInputsFiles] using hrest
    | parsed bs =>
      obtain ⟨xs, hxs⟩ := processBlocks_benign_ok bs (h bs (by simp))
      obtain ⟨rest, hr⟩ := hrest
      exact ⟨xs ++ rest, by simp [listInputsFiles, hxs, hr]⟩

/-- C7: read failures and parse failures of individual files are skipped
without affecting the rest of the extraction (dropping them from the input
leaves the result unchanged); an input whose parsed files are all benign
extracts successfully; the per-file loop never returns the
directory-listing error, which arises exactly from a failed walk; and a
failing default-value serialization is the error that makes the call
fail. -/
theorem c7_per_item_failures_never_abort (fs : List TfFile)
    (h : ∀ bs, TfFile.parsed bs ∈ fs → ∀ b ∈ bs, Block.benign b = true) :
    listInputsFiles (fs.filter (fun f => !f.isSkipped)) = listInputsFiles fs
    ∧ extractionSucceeds (listInputsFiles fs) = true
    ∧ (∀ gs : List TfFile,
        listInputsFiles gs ≠ .error (.failed .walkError))
    ∧ listInputs (.error ()) = .error (.failed .walkError)
    ∧ listInputsFiles
        [.parsed [⟨"variable", ["u"], [("default", Expr.literal .unknown)]⟩]]
      = .error (.failed .serializationError) := by
  refine ⟨listInputsFiles_filter_skipped fs, ?_, ?_, rfl, rfl⟩
  · obtain ⟨xs, hxs⟩ := listInputsFiles_benign_ok fs h
    simp [extractionSucceeds, hxs]
  · intro gs hcontra
    rcases listInputsFiles_error_cases gs _ hcontra with h1 | h1 | h1 <;>
      simp at h1

theorem c7_per_item_failures_never_abort_witness :
    listInputsFiles
        (([TfFile.readError, TfFile.parsed [⟨"variable", ["X"], []⟩],
          TfFile.parseError]).filter (fun f => !f.isSkipped))
      = listInputsFiles [TfFile.readError,
          TfFile.parsed [⟨"variable", ["X"], []⟩], TfFile.parseError]
    ∧ extractionSucceeds (listInputsFiles [TfFile.readError,
        TfFile.parsed [⟨"variable", ["X"], []⟩], TfFile.parseError]) = true := by
  have h := c7_per_item_failures_never_abort
    [TfFile.readError, TfFile.parsed [⟨"variable", ["X"], []⟩], TfFile.parseError]
    (by
      intro bs hbs b hb
      simp at hbs
      subst hbs
      simp at hb
      subst hb
      rfl)
  exact ⟨h.1, h.2.1⟩

end Scaffold
